import Mathlib

/-!
Verification of the codewatch domain model (value objects and entities).

The Python source is shallowly embedded: strings are lists of characters,
Python `str.strip` becomes an explicit whitespace-trimming function, each
fallible constructor (`__post_init__` validation) becomes a function into
`Except`, and CPython's generated `__hash__` for frozen dataclasses becomes
a partial (Option-valued) hash function, `none` standing for a raised
`TypeError`.
-/

namespace Codewatch

/-- The set of characters removed by Python `str.strip()` (ASCII whitespace;
the claims never involve the wider Unicode whitespace set). -/
def pyIsSpace (c : Char) : Bool :=
  c = ' ' || c = '\t' || c = '\n' || c = '\x0d' || c = '\x0b' || c = '\x0c'

/-- Remove leading whitespace, as the first half of Python `str.strip()`. -/
def pyLStrip (l : List Char) : List Char :=
  l.dropWhile pyIsSpace

/-- Python `str.strip()`: remove leading and trailing whitespace. -/
def pyStrip (l : List Char) : List Char :=
  (((l.dropWhile pyIsSpace).reverse).dropWhile pyIsSpace).reverse

/-- Split a string at its LAST dot, mirroring
`qualified_name.rfind('.')` followed by the two slices in
`QualifiedName.parse`: returns `some (before, after)` when a dot exists,
`none` when the string has no dot (the `'.' not in qualified_name` test). -/
def lastDotSplit : List Char → Option (List Char × List Char)
  | [] => none
  | c :: rest =>
    match lastDotSplit rest with
    | some (p, n) => some (c :: p, n)
    | none => if c = '.' then some ([], rest) else none

/-- Error raised by `QualifiedName` construction and parsing
(`InvalidQualifiedNameError`), one constructor per raise site. -/
inductive QNError where
  | emptyInput
  | noSeparator
  | emptyPackage
  | emptyName
deriving DecidableEq, Repr

/-- A fully-qualified identifier (`QualifiedName` dataclass fields). -/
structure QualifiedName where
  package : List Char
  name : List Char
deriving DecidableEq, Repr

/-- `QualifiedName.__post_init__`: trim both components, then reject an
empty package, then reject an empty name. -/
def QualifiedName.make (package name : List Char) : Except QNError QualifiedName :=
  if pyStrip package = [] then .error .emptyPackage
  else if pyStrip name = [] then .error .emptyName
  else .ok { package := pyStrip package, name := pyStrip name }

/-- `QualifiedName.parse`: trim the input, reject the empty string, reject a
string without a dot, then split at the last dot and construct. -/
def QualifiedName.parse (s : List Char) : Except QNError QualifiedName :=
  if pyStrip s = [] then .error .emptyInput
  else
    match lastDotSplit (pyStrip s) with
    | none => .error .noSeparator
    | some (p, n) => QualifiedName.make p n

/-- `QualifiedName.__str__`: the form `package.name`. -/
def QualifiedName.str (q : QualifiedName) : List Char :=
  q.package ++ '.' :: q.name

/-- Error raised by `ConfidenceScore.__post_init__`
(`InvalidConfidenceScoreError`), carrying the offending (post-normalization)
value that the f-string message reports. -/
structure ConfError where
  offending : ℚ
deriving DecidableEq, Repr

/-- A confidence score; floats are embedded as exact rationals (the source
only compares and never rounds). -/
structure ConfidenceScore where
  value : ℚ
deriving DecidableEq, Repr

/-- The tolerance constant `EPSILON = 0.00001`. -/
def EPSILON : ℚ := 1 / 100000

/-- The normalization step of `ConfidenceScore.__post_init__`: clamp values
within `EPSILON` below `0.0` to `0.0` and values within `EPSILON` above
`1.0` to `1.0`, leave everything else alone. -/
def ConfidenceScore.normalize (v : ℚ) : ℚ :=
  if -EPSILON ≤ v ∧ v < 0 then 0
  else if 1 < v ∧ v ≤ 1 + EPSILON then 1
  else v

/-- `ConfidenceScore.__post_init__`: normalize first, then require the
(possibly clamped) value to lie in `[0, 1]`, else raise. -/
def ConfidenceScore.make (v : ℚ) : Except ConfError ConfidenceScore :=
  if 0 ≤ ConfidenceScore.normalize v ∧ ConfidenceScore.normalize v ≤ 1 then
    .ok { value := ConfidenceScore.normalize v }
  else .error { offending := ConfidenceScore.normalize v }

/-- Split a string on the path separator, mirroring how a POSIX
`pathlib.PurePath` decomposes its argument. -/
def splitSlash : List Char → List (List Char)
  | [] => [[]]
  | c :: rest =>
    if c = '/' then [] :: splitSlash rest
    else
      match splitSlash rest with
      | [] => [[c]]
      | g :: gs => (c :: g) :: gs

/-- A POSIX `pathlib.Path` value: whether the path is absolute, and its
non-trivial components (empty and "." segments are dropped, as
`PurePosixPath` does). -/
structure PyPath where
  isAbs : Bool
  comps : List (List Char)
deriving DecidableEq, Repr

/-- `pathlib.Path(s)` for a POSIX path string. -/
def PyPath.ofChars (s : List Char) : PyPath :=
  { isAbs := decide (s.head? = some '/'),
    comps := (splitSlash s).filter (fun c => !(c = [] || c = ['.'])) }

/-- `Path.parts`: the root marker (for an absolute path) followed by the
components; empty exactly when the path has no component at all. -/
def PyPath.parts (p : PyPath) : List (List Char) :=
  (if p.isAbs then [['/']] else []) ++ p.comps

/-- Interleave the path separator between components, for `str(Path)`. -/
def joinSlash : List (List Char) → List Char
  | [] => []
  | [c] => c
  | c :: rest => c ++ '/' :: joinSlash rest

/-- `str(Path)`: "." for the empty relative path, otherwise the components
joined by the separator (with a leading root for absolute paths). -/
def PyPath.str (p : PyPath) : List Char :=
  if p.isAbs then '/' :: joinSlash p.comps
  else if p.comps = [] then ['.']
  else joinSlash p.comps

/-- Error raised by `PatternLocation.__post_init__`
(`InvalidLocationError`), one constructor per raise site, carrying the
offending values that the message reports. -/
inductive LocError where
  | lineStartNotPositive (v : ℤ)
  | lineEndNotPositive (v : ℤ)
  | lineEndBeforeLineStart (s e : ℤ)
  | columnStartNegative (v : ℤ)
  | columnEndNegative (v : ℤ)
  | columnEndBeforeColumnStart (s e : ℤ)
  | emptyFilePath
deriving DecidableEq, Repr

/-- A source-code location (`PatternLocation` dataclass fields). -/
structure PatternLocation where
  file_path : PyPath
  line_start : ℤ
  line_end : ℤ
  column_start : ℤ
  column_end : ℤ
deriving DecidableEq, Repr

/-- `PatternLocation.__post_init__`: the seven validation checks, in the
source's order, each raising on its own. -/
def PatternLocation.make (fp : PyPath) (line_start line_end column_start column_end : ℤ) :
    Except LocError PatternLocation :=
  if line_start < 1 then .error (.lineStartNotPositive line_start)
  else if line_end < 1 then .error (.lineEndNotPositive line_end)
  else if line_end < line_start then .error (.lineEndBeforeLineStart line_start line_end)
  else if column_start < 0 then .error (.columnStartNegative column_start)
  else if column_end < 0 then .error (.columnEndNegative column_end)
  else if line_start = line_end ∧ column_end < column_start then
    .error (.columnEndBeforeColumnStart column_start column_end)
  else if fp.parts = [] then .error .emptyFilePath
  else .ok { file_path := fp, line_start := line_start, line_end := line_end,
             column_start := column_start, column_end := column_end }

/-- `PatternLocation.at_line`: a whole-line location with column range 0-0. -/
def PatternLocation.at_line (fp : PyPath) (line_number : ℤ) : Except LocError PatternLocation :=
  PatternLocation.make fp line_number line_number 0 0

/-- `PatternLocation.single_point`: line and column collapsed to a point. -/
def PatternLocation.single_point (fp : PyPath) (line column : ℤ) : Except LocError PatternLocation :=
  PatternLocation.make fp line line column column

/-- Decimal rendering of a Python integer. -/
def intChars (i : ℤ) : List Char :=
  if i < 0 then '-' :: Nat.toDigits 10 i.natAbs else Nat.toDigits 10 i.toNat

/-- `PatternLocation.__str__`: `path:line:col-col` on a single line,
`path:line:col-line:col` across lines. -/
def PatternLocation.toChars (loc : PatternLocation) : List Char :=
  if loc.line_start = loc.line_end then
    loc.file_path.str ++ ':' :: intChars loc.line_start ++ ':' :: intChars loc.column_start
      ++ '-' :: intChars loc.column_end
  else
    loc.file_path.str ++ ':' :: intChars loc.line_start ++ ':' :: intChars loc.column_start
      ++ '-' :: intChars loc.line_end ++ ':' :: intChars loc.column_end

/-- The `Framework` enumeration. -/
inductive Framework where
  | COSMOS_SDK
  | ETHEREUM
  | POLKADOT
deriving DecidableEq, Repr

/-- The `PatternType` enumeration. -/
inductive PatternType where
  | KEEPER
  | MESSAGE_HANDLER
  | QUERY_HANDLER
  | VALIDATOR
deriving DecidableEq, Repr

/-- The `RelationType` enumeration. -/
inductive RelationType where
  | CALLS
  | DEPENDS_ON
  | IMPLEMENTS
  | INHERITS_FROM
deriving DecidableEq, Repr

/-- `ExtractionError`, carrying its human-readable message. -/
structure ExtractionError where
  msg : List Char
deriving DecidableEq, Repr

/-- A JSON-serializable Python value, as allowed in relation metadata. -/
inductive PyVal where
  | pstr : List Char → PyVal
  | pint : ℤ → PyVal
  | pbool : Bool → PyVal
  | pnone : PyVal
  | plist : List PyVal → PyVal
  | pdict : List (List Char × PyVal) → PyVal

/-- A `dict[str, Any]` metadata mapping: Python dict insertion order is
part of the embedding, so the mapping is an association list. -/
def Metadata : Type := List (List Char × PyVal)

/-- The value fields shared by every `Pattern` (the abstract base's four
dataclass fields; the test suite's `ConcretePattern` has exactly these). -/
structure PatternData where
  location : PatternLocation
  confidence : ConfidenceScore
  pattern_type : PatternType
  framework : Framework
deriving DecidableEq, Repr

/-- A live `Pattern` instance: its value fields together with an object
identity tag modelling CPython `id()` — the `source is target` check in
`PatternRelation.__post_init__` compares identities, never values, so two
distinct instances (different `oid`) may carry equal `data`. -/
structure PatternObj where
  oid : ℕ
  data : PatternData
deriving DecidableEq, Repr

/-- A `KeeperPattern` entity: the shared fields plus the keeper-specific
ones (`store_keys` and `dependencies` are tuples in the source). -/
structure KeeperPattern where
  location : PatternLocation
  confidence : ConfidenceScore
  pattern_type : PatternType
  framework : Framework
  keeper_name : QualifiedName
  store_keys : List (List Char)
  dependencies : List QualifiedName

/-- `KeeperPattern.validate`: raise `ExtractionError` when `store_keys` is
empty (with the f-string message naming the keeper), succeed otherwise. -/
def KeeperPattern.validate (k : KeeperPattern) : Except ExtractionError Unit :=
  if k.store_keys = [] then
    .error { msg := "Keeper '".toList ++ k.keeper_name.str
                      ++ "' must have at least one store key".toList }
  else .ok ()

/-- A constructed `PatternRelation` (its four dataclass fields). -/
structure PatternRelation where
  source : PatternObj
  target : PatternObj
  relation_type : RelationType
  metadata : Metadata

/-- `PatternRelation.__post_init__`: raise `ExtractionError` when source
and target are the same instance (`is`, i.e. identity), else construct. -/
def PatternRelation.make (source target : PatternObj) (relation_type : RelationType)
    (metadata : Metadata) : Except ExtractionError PatternRelation :=
  if source.oid = target.oid then
    .error { msg := "Pattern relation source and target cannot be the same pattern".toList }
  else
    .ok { source := source, target := target, relation_type := relation_type,
          metadata := metadata }

/-- The substring `needle` occurs somewhere in `hay` (the claims' "message
mentions ..." condition). -/
def mentions (needle hay : List Char) : Prop :=
  ∃ l r, hay = l ++ needle ++ r

/-! ### CPython hashing model

A frozen `eq=True` dataclass gets a generated `__hash__` that hashes the
tuple of its fields; hashing a tuple hashes every component, and raises
`TypeError` (here: `none`) as soon as one component is unhashable. The
concrete hash numbers below are model artifacts; what is faithful is which
values hash at all: `Path`, `float`, `str`-backed enums, strings, ints and
tuples of hashables do, while `dict` (whose `__hash__` is `None`) does
not. -/

/-- Pairing used to combine component hashes. -/
def hcomb (a b : ℕ) : ℕ := Nat.pair a b

/-- Hash of a string. -/
def strHash (s : List Char) : ℕ := s.foldl (fun a c => hcomb a c.toNat) 17

/-- Hash of a `Path` (hashable in Python). -/
def pathHash (p : PyPath) : ℕ :=
  hcomb (cond p.isAbs 1 0) ((p.comps.map strHash).foldl hcomb 19)

/-- Hash of a float embedded as a rational (floats are hashable). -/
def ratHash (q : ℚ) : ℕ := hcomb q.num.natAbs q.den

/-- Hash of a `Framework` member. -/
def frameworkHash : Framework → ℕ
  | .COSMOS_SDK => 1
  | .ETHEREUM => 2
  | .POLKADOT => 3

/-- Hash of a `PatternType` member. -/
def patternTypeHash : PatternType → ℕ
  | .KEEPER => 1
  | .MESSAGE_HANDLER => 2
  | .QUERY_HANDLER => 3
  | .VALIDATOR => 4

/-- Hash of a `RelationType` member. -/
def relationTypeHash : RelationType → ℕ
  | .CALLS => 1
  | .DEPENDS_ON => 2
  | .IMPLEMENTS => 3
  | .INHERITS_FROM => 4

/-- Hash of a Python int (hashable). -/
def intHash (i : ℤ) : ℕ := hcomb i.natAbs (cond (decide (i < 0)) 1 0)

/-- Generated hash of a `PatternLocation` (all five fields hashable). -/
def locationHash (loc : PatternLocation) : ℕ :=
  hcomb (pathHash loc.file_path)
    (hcomb (intHash loc.line_start) (hcomb (intHash loc.line_end)
      (hcomb (intHash loc.column_start) (intHash loc.column_end))))

/-- Generated hash of a `Pattern` instance: value-based (the identity tag
plays no part), over the shared dataclass fields, all hashable. -/
def patternHash (p : PatternObj) : ℕ :=
  hcomb (locationHash p.data.location)
    (hcomb (ratHash p.data.confidence.value)
      (hcomb (patternTypeHash p.data.pattern_type) (frameworkHash p.data.framework)))

/-- Hash of a `dict`: Python sets `dict.__hash__ = None`, so `hash()` on
any dict raises `TypeError` — there is no hashable case. -/
def metadataHash (_ : Metadata) : Option ℕ := none

/-- Hash a tuple of components, each itself possibly unhashable: the
tuple's hash exists only when every component's does. -/
def tupleHash : List (Option ℕ) → Option ℕ
  | [] => some 23
  | o :: rest =>
    match o, tupleHash rest with
    | some a, some b => some (hcomb a b)
    | _, _ => none

/-- The generated `PatternRelation.__hash__`: the hash of the tuple of all
four fields, metadata included (the source keeps `dict` metadata in the
generated hash). -/
def relationHash (r : PatternRelation) : Option ℕ :=
  tupleHash [some (patternHash r.source), some (patternHash r.target),
             some (relationTypeHash r.relation_type), metadataHash r.metadata]

/-! ### Concrete fixtures (mirroring the repository's tests and examples) -/

deriving instance DecidableEq for Except

/-- The path `keeper.go`. -/
def samplePath : PyPath :=
  { isAbs := false, comps := [[ 'k', 'e', 'e', 'p', 'e', 'r', '.', 'g', 'o' ]] }

/-- The whole-line location `keeper.go:142`. -/
def sampleLocation : PatternLocation :=
  { file_path := samplePath, line_start := 142, line_end := 142,
    column_start := 0, column_end := 0 }

/-- A small qualified name `bank.Keeper`. -/
def sampleName : QualifiedName :=
  { package := [ 'b', 'a', 'n', 'k' ], name := [ 'K', 'e', 'e', 'p', 'e', 'r' ] }

/-- Shared pattern fields used by the concrete entities below. -/
def sampleData : PatternData :=
  { location := sampleLocation, confidence := { value := 9 / 10 },
    pattern_type := .KEEPER, framework := .COSMOS_SDK }

/-- A live pattern instance. -/
def objA : PatternObj := { oid := 0, data := sampleData }

/-- A second, distinct pattern instance carrying the same value. -/
def objB : PatternObj := { oid := 1, data := sampleData }

/-- A keeper with an empty `store_keys` tuple. -/
def keeperNoKeys : KeeperPattern :=
  { location := sampleLocation, confidence := { value := 9 / 10 },
    pattern_type := .KEEPER, framework := .COSMOS_SDK,
    keeper_name := sampleName, store_keys := [], dependencies := [] }

/-- A keeper with the single store key `x`. -/
def keeperOneKey : KeeperPattern :=
  { location := sampleLocation, confidence := { value := 9 / 10 },
    pattern_type := .KEEPER, framework := .COSMOS_SDK,
    keeper_name := sampleName, store_keys := [[ 'x' ]], dependencies := [] }

/-! ### Helper lemmas on trimming and last-dot splitting -/

theorem dropWhile_length_le (p : Char → Bool) (l : List Char) :
    (l.dropWhile p).length ≤ l.length := by
  induction l with
  | nil => simp
  | cons c t ih =>
    by_cases h : p c
    · simp only [List.dropWhile_cons_of_pos h]
      exact Nat.le_trans ih (Nat.le_succ _)
    · simp [List.dropWhile_cons_of_neg h]

theorem pyStrip_length_le (l : List Char) : (pyStrip l).length ≤ l.length := by
  unfold pyStrip
  rw [List.length_reverse]
  calc ((l.dropWhile pyIsSpace).reverse.dropWhile pyIsSpace).length
      ≤ (l.dropWhile pyIsSpace).reverse.length := dropWhile_length_le _ _
    _ = (l.dropWhile pyIsSpace).length := List.length_reverse _
    _ ≤ l.length := dropWhile_length_le _ _

theorem head_not_space_of_pyStrip_self (c : Char) (t : List Char)
    (h : pyStrip (c :: t) = c :: t) : pyIsSpace c = false := by
  by_contra hc
  have hc : pyIsSpace c = true := by
    cases hfc : pyIsSpace c with
    | false => exact absurd hfc hc
    | true => rfl
  have hlen : (pyStrip (c :: t)).length ≤ t.length := by
    unfold pyStrip
    rw [List.length_reverse, List.dropWhile_cons_of_pos hc]
    calc ((t.dropWhile pyIsSpace).reverse.dropWhile pyIsSpace).length
        ≤ (t.dropWhile pyIsSpace).reverse.length := dropWhile_length_le _ _
      _ = (t.dropWhile pyIsSpace).length := List.length_reverse _
      _ ≤ t.length := dropWhile_length_le _ _
  rw [h] at hlen
  simp at hlen

theorem lstrip_self_of_pyStrip_self (l : List Char) (h : pyStrip l = l) :
    l.dropWhile pyIsSpace = l := by
  cases l with
  | nil => rfl
  | cons c t =>
    rw [List.dropWhile_cons_of_neg]
    rw [head_not_space_of_pyStrip_self c t h]
    simp

theorem rev_dropWhile_self_of_pyStrip_self (l : List Char) (h : pyStrip l = l) :
    l.reverse.dropWhile pyIsSpace = l.reverse := by
  have hl : pyStrip l = (l.reverse.dropWhile pyIsSpace).reverse := by
    unfold pyStrip
    rw [lstrip_self_of_pyStrip_self l h]
  rw [h] at hl
  have := congrArg List.reverse hl
  rw [List.reverse_reverse] at this
  exact this.symm

theorem pyStrip_of_ends (l : List Char)
    (h1 : l.dropWhile pyIsSpace = l) (h2 : l.reverse.dropWhile pyIsSpace = l.reverse) :
    pyStrip l = l := by
  unfold pyStrip
  rw [h1, h2, List.reverse_reverse]

theorem dropWhile_cons_ne (c : Char) (t : List Char) (h : pyIsSpace c = false) :
    (c :: t).dropWhile pyIsSpace = c :: t := by
  rw [List.dropWhile_cons_of_neg]
  simp [h]

theorem pyStrip_append_sep (bef aft : List Char) (sep : Char)
    (hb : pyStrip bef = bef) (hb0 : bef ≠ [])
    (ha : pyStrip aft = aft) (ha0 : aft ≠ []) :
    pyStrip (bef ++ sep :: aft) = bef ++ sep :: aft := by
  apply pyStrip_of_ends
  · obtain ⟨c, t, rfl⟩ := List.exists_cons_of_ne_nil hb0
    have hc := head_not_space_of_pyStrip_self c t hb
    simpa using dropWhile_cons_ne c (t ++ sep :: aft) hc
  · obtain ⟨c, t, hrev⟩ := List.exists_cons_of_ne_nil
      (by simpa using ha0 : aft.reverse ≠ [])
    have hdrop := rev_dropWhile_self_of_pyStrip_self aft ha
    rw [hrev] at hdrop
    have hc : pyIsSpace c = false := by
      by_contra hcc
      have hcc : pyIsSpace c = true := by
        cases hfc : pyIsSpace c with
        | false => exact absurd hfc hcc
        | true => rfl
      rw [List.dropWhile_cons_of_pos hcc] at hdrop
      have := congrArg List.length hdrop
      have hle := dropWhile_length_le pyIsSpace t
      simp at this
      omega
    have : (bef ++ sep :: aft).reverse = c :: (t ++ sep :: bef.reverse) := by
      rw [List.reverse_append, List.reverse_cons, hrev]
      simp
    rw [this, dropWhile_cons_ne c _ hc, ← this]

theorem lastDotSplit_cons (c : Char) (rest : List Char) :
    lastDotSplit (c :: rest) =
      match lastDotSplit rest with
      | some (p, n) => some (c :: p, n)
      | none => if c = '.' then some ([], rest) else none := rfl

theorem lastDotSplit_eq_none (l : List Char) (h : '.' ∉ l) : lastDotSplit l = none := by
  induction l with
  | nil => rfl
  | cons c t ih =>
    have hct : '.' ∉ t := fun hm => h (List.mem_cons_of_mem c hm)
    have hc : c ≠ '.' := fun hc => h (hc ▸ List.mem_cons_self c t)
    rw [lastDotSplit_cons, ih hct]
    simp [hc]

theorem lastDotSplit_append (bef aft : List Char) (h : '.' ∉ aft) :
    lastDotSplit (bef ++ '.' :: aft) = some (bef, aft) := by
  induction bef with
  | nil =>
    rw [List.nil_append, lastDotSplit_cons, lastDotSplit_eq_none aft h]
    simp
  | cons c t ih =>
    rw [List.cons_append, lastDotSplit_cons, ih]

theorem not_mem_of_lastDotSplit_none (l : List Char) (h : lastDotSplit l = none) :
    '.' ∉ l := by
  induction l with
  | nil => simp
  | cons c t ih =>
    rw [lastDotSplit_cons] at h
    cases hrec : lastDotSplit t with
    | some pr => rw [hrec] at h; cases pr; simp at h
    | none =>
      rw [hrec] at h
      by_cases hc : c = '.'
      · simp [hc] at h
      · intro hm
        rcases List.mem_cons.mp hm with hm | hm
        · exact hc hm.symm
        · exact ih hrec hm

theorem lastDotSplit_sound (l bef aft : List Char)
    (h : lastDotSplit l = some (bef, aft)) : l = bef ++ '.' :: aft ∧ '.' ∉ aft := by
  induction l generalizing bef aft with
  | nil => simp [lastDotSplit] at h
  | cons c t ih =>
    rw [lastDotSplit_cons] at h
    cases hrec : lastDotSplit t with
    | some pr =>
      obtain ⟨p, n⟩ := pr
      rw [hrec] at h
      simp only [Option.some.injEq, Prod.mk.injEq] at h
      obtain ⟨hb, ha⟩ := h
      obtain ⟨ht, hn⟩ := ih p n hrec
      subst ha ht
      rw [← hb]
      simp
      exact hn
    | none =>
      rw [hrec] at h
      by_cases hc : c = '.'
      · rw [if_pos hc] at h
        simp only [Option.some.injEq, Prod.mk.injEq] at h
        obtain ⟨hb, ha⟩ := h
        subst hc ha
        rw [← hb]
        simp
        exact not_mem_of_lastDotSplit_none t hrec
      · simp [hc] at h

/-! ### Claim C2: confidence-score clamping and range check -/

theorem normalize_of_low (c : ℚ) (h1 : -EPSILON ≤ c) (h2 : c < 0) :
    ConfidenceScore.normalize c = 0 := by
  unfold ConfidenceScore.normalize
  rw [if_pos ⟨h1, h2⟩]

theorem normalize_of_high (c : ℚ) (h1 : 1 < c) (h2 : c ≤ 1 + EPSILON) :
    ConfidenceScore.normalize c = 1 := by
  unfold ConfidenceScore.normalize
  rw [if_neg, if_pos ⟨h1, h2⟩]
  rintro ⟨_, hb⟩
  linarith

theorem normalize_of_id (c : ℚ) (h1 : ¬ c < 0) (h2 : ¬ 1 < c) :
    ConfidenceScore.normalize c = c := by
  unfold ConfidenceScore.normalize
  rw [if_neg, if_neg]
  · rintro ⟨ha, _⟩
    exact h2 ha
  · rintro ⟨_, hb⟩
    exact h1 hb

theorem normalize_of_far (c : ℚ) (h : c < -EPSILON ∨ 1 + EPSILON < c) :
    ConfidenceScore.normalize c = c := by
  have heps : (0 : ℚ) < EPSILON := by norm_num [EPSILON]
  unfold ConfidenceScore.normalize
  rcases h with h | h
  · rw [if_neg, if_neg]
    · rintro ⟨ha, _⟩
      linarith
    · rintro ⟨ha, _⟩
      linarith
  · rw [if_neg, if_neg]
    · rintro ⟨_, hb⟩
      linarith
    · rintro ⟨_, hb⟩
      linarith

/-- C2: `ConfidenceScore` construction clamps inputs in `[-1e-5, 0)` to
`0`, clamps inputs in `(1, 1 + 1e-5]` to `1`, keeps inputs in `[0, 1]`
unchanged, and fails with `InvalidConfidenceScoreError` exactly on inputs
below `-1e-5` or above `1 + 1e-5`; clamping runs before the range check. -/
theorem C2_confidence_clamp_then_check :
    ∀ c : ℚ,
      (-EPSILON ≤ c ∧ c < 0 → ConfidenceScore.make c = .ok { value := 0 }) ∧
      (1 < c ∧ c ≤ 1 + EPSILON → ConfidenceScore.make c = .ok { value := 1 }) ∧
      (0 ≤ c ∧ c ≤ 1 → ConfidenceScore.make c = .ok { value := c }) ∧
      (c < -EPSILON ∨ 1 + EPSILON < c → ∃ e, ConfidenceScore.make c = .error e) := by
  intro c
  have heps : (0 : ℚ) < EPSILON := by norm_num [EPSILON]
  refine ⟨?_, ?_, ?_, ?_⟩
  · rintro ⟨h1, h2⟩
    have hn := normalize_of_low c h1 h2
    unfold ConfidenceScore.make
    rw [hn, if_pos ⟨le_refl 0, by norm_num⟩]
  · rintro ⟨h1, h2⟩
    have hn := normalize_of_high c h1 h2
    unfold ConfidenceScore.make
    rw [hn, if_pos ⟨by norm_num, le_refl 1⟩]
  · rintro ⟨h1, h2⟩
    have hn := normalize_of_id c (by linarith) (by linarith)
    unfold ConfidenceScore.make
    rw [hn, if_pos ⟨h1, h2⟩]
  · intro h
    have hn := normalize_of_far c h
    refine ⟨{ offending := c }, ?_⟩
    unfold ConfidenceScore.make
    rw [hn, if_neg]
    rintro ⟨ha, hb⟩
    rcases h with h | h
    · linarith
    · linarith

theorem c2hyp1 : -EPSILON ≤ -(1 / 200000 : ℚ) ∧ -(1 / 200000 : ℚ) < 0 := by
  norm_num [EPSILON]

theorem c2hyp2 : (1 : ℚ) < 1 + 1 / 200000 ∧ (1 : ℚ) + 1 / 200000 ≤ 1 + EPSILON := by
  norm_num [EPSILON]

theorem c2hyp3 : (0 : ℚ) ≤ 1 / 2 ∧ (1 / 2 : ℚ) ≤ 1 := by norm_num

theorem c2hyp4 : (2 : ℚ) < -EPSILON ∨ (1 : ℚ) + EPSILON < 2 := by
  right
  norm_num [EPSILON]

/-- C2 witness: the four regimes at the inputs `-5e-6`, `1 + 5e-6`, `0.5`
and `2`. -/
theorem C2_witness :
    ConfidenceScore.make (-(1 / 200000)) = .ok { value := 0 } ∧
    ConfidenceScore.make (1 + 1 / 200000) = .ok { value := 1 } ∧
    ConfidenceScore.make (1 / 2) = .ok { value := 1 / 2 } ∧
    (∃ e, ConfidenceScore.make 2 = .error e) :=
  ⟨(C2_confidence_clamp_then_check (-(1 / 200000))).1 c2hyp1,
   (C2_confidence_clamp_then_check (1 + 1 / 200000)).2.1 c2hyp2,
   (C2_confidence_clamp_then_check (1 / 2)).2.2.1 c2hyp3,
   (C2_confidence_clamp_then_check 2).2.2.2 c2hyp4⟩

/-! ### Claims C3, C4, C10: qualified-name parsing -/

theorem parse_eq_make (s bef aft : List Char) (hs : pyStrip s = s)
    (hd : s = bef ++ '.' :: aft) (hna : '.' ∉ aft) :
    QualifiedName.parse s = QualifiedName.make bef aft := by
  have hne : bef ++ '.' :: aft ≠ [] := by simp
  unfold QualifiedName.parse
  rw [hs, hd, if_neg hne, lastDotSplit_append bef aft hna]

/-- C3 counterexample: the trimmed input `a .b` contains a dot, but the
package field the parse produces is `a`, not the substring `a ` that
stands before the last dot — the constructor trims each component. -/
theorem C3_counterexample :
    pyStrip [ 'a', ' ', '.', 'b' ] = [ 'a', ' ', '.', 'b' ] ∧
    [ 'a', ' ', '.', 'b' ] = [ 'a', ' ' ] ++ '.' :: [ 'b' ] ∧
    '.' ∉ [ 'b' ] ∧
    QualifiedName.parse [ 'a', ' ', '.', 'b' ] = .ok { package := [ 'a' ], name := [ 'b' ] } ∧
    ([ 'a' ] : List Char) ≠ [ 'a', ' ' ] := by
  decide

/-- C3 (amended): for every trimmed input containing at least one dot,
`QualifiedName.parse` splits at the LAST dot; when both split parts are
non-empty after trimming, it succeeds with `package` the trimmed part
before that dot and `name` the trimmed part after it (so the parts round
through unchanged whenever they carry no whitespace next to the dot);
in particular, the multi-segment cosmos-sdk input resolves as specified. -/
theorem C3_parse_splits_at_last_dot :
    (∀ s bef aft : List Char, pyStrip s = s → s = bef ++ '.' :: aft → '.' ∉ aft →
        pyStrip bef ≠ [] → pyStrip aft ≠ [] →
        QualifiedName.parse s = .ok { package := pyStrip bef, name := pyStrip aft }) ∧
    QualifiedName.parse ("github.com/cosmos/cosmos-sdk/x/bank/keeper.Keeper").toList =
      .ok { package := ("github.com/cosmos/cosmos-sdk/x/bank/keeper").toList,
            name := ("Keeper").toList } := by
  constructor
  · intro s bef aft hs hd hna hb hn
    rw [parse_eq_make s bef aft hs hd hna]
    unfold QualifiedName.make
    rw [if_neg hb, if_neg hn]
  · decide

/-- C3 witness: the amended statement applied at the input `x.y`. -/
theorem C3_witness :
    QualifiedName.parse [ 'x', '.', 'y' ]
      = .ok { package := pyStrip [ 'x' ], name := pyStrip [ 'y' ] } :=
  C3_parse_splits_at_last_dot.1 [ 'x', '.', 'y' ] [ 'x' ] [ 'y' ]
    (by decide) (by decide) (by decide) (by decide) (by decide)

/-- C4: for non-empty, already-trimmed `p` and `n` with no dot in `n`,
construction succeeds unchanged and the string form `p ++ "." ++ n`
parses back to the same `QualifiedName`. -/
theorem C4_roundtrip :
    ∀ p n : List Char, p ≠ [] → n ≠ [] → pyStrip p = p → pyStrip n = n → '.' ∉ n →
      QualifiedName.make p n = .ok { package := p, name := n } ∧
      QualifiedName.parse (QualifiedName.str { package := p, name := n }) =
        .ok { package := p, name := n } := by
  intro p n hp0 hn0 hp hn hdn
  have hmk : QualifiedName.make p n = .ok { package := p, name := n } := by
    unfold QualifiedName.make
    rw [hp, hn, if_neg hp0, if_neg hn0]
  refine ⟨hmk, ?_⟩
  have hs : pyStrip (p ++ '.' :: n) = p ++ '.' :: n :=
    pyStrip_append_sep p n '.' hp hp0 hn hn0
  have hstr : QualifiedName.str { package := p, name := n } = p ++ '.' :: n := rfl
  rw [hstr, parse_eq_make (p ++ '.' :: n) p n hs rfl hdn, hmk]

/-- C4 witness: the round-trip at `package = a.b`, `name = c`. -/
theorem C4_witness :
    QualifiedName.make [ 'a', '.', 'b' ] [ 'c' ]
        = .ok { package := [ 'a', '.', 'b' ], name := [ 'c' ] } ∧
    QualifiedName.parse (QualifiedName.str { package := [ 'a', '.', 'b' ], name := [ 'c' ] })
        = .ok { package := [ 'a', '.', 'b' ], name := [ 'c' ] } :=
  C4_roundtrip [ 'a', '.', 'b' ] [ 'c' ]
    (by decide) (by decide) (by decide) (by decide) (by decide)

/-- C10: on a trimmed input containing a dot, parsing fails (with
`InvalidQualifiedNameError`) exactly when one of the two split parts trims
to empty; when the last dot is the final character, the error is the
empty-package one if the part before the dot trims to empty and the
empty-name one otherwise; concretely, `pkg.` and `...` both fail via the
empty name, the package `..` of the latter being accepted as non-empty. -/
theorem C10_parse_empty_component_failures :
    (∀ s bef aft : List Char, pyStrip s = s → s = bef ++ '.' :: aft → '.' ∉ aft →
        ((∃ e, QualifiedName.parse s = .error e) ↔
          (pyStrip bef = [] ∨ pyStrip aft = []))) ∧
    (∀ s bef : List Char, pyStrip s = s → s = bef ++ [ '.' ] →
        QualifiedName.parse s =
          (if pyStrip bef = [] then .error .emptyPackage else .error .emptyName)) ∧
    QualifiedName.parse ("pkg.").toList = .error .emptyName ∧
    QualifiedName.parse ("...").toList = .error .emptyName ∧
    pyStrip ("..").toList ≠ [] := by
  refine ⟨?_, ?_, by decide, by decide, by decide⟩
  · intro s bef aft hs hd hna
    rw [parse_eq_make s bef aft hs hd hna]
    unfold QualifiedName.make
    constructor
    · rintro ⟨e, he⟩
      by_cases hb : pyStrip bef = []
      · exact .inl hb
      · by_cases hn : pyStrip aft = []
        · exact .inr hn
        · rw [if_neg hb, if_neg hn] at he
          exact absurd he (by simp)
    · rintro (hb | hn)
      · exact ⟨.emptyPackage, by rw [if_pos hb]⟩
      · by_cases hb : pyStrip bef = []
        · exact ⟨.emptyPackage, by rw [if_pos hb]⟩
        · exact ⟨.emptyName, by rw [if_neg hb, if_pos hn]⟩
  · intro s bef hs hd
    have hd2 : s = bef ++ '.' :: [] := hd
    rw [parse_eq_make s bef [] hs hd2 (by simp)]
    unfold QualifiedName.make
    by_cases hb : pyStrip bef = []
    · rw [if_pos hb, if_pos hb]
    · rw [if_neg hb, if_neg hb, if_pos (show pyStrip [] = [] from rfl)]

/-- C10 witness: the failure characterization applied at `.x` (empty
package part) and the final-dot rule applied at `p.`. -/
theorem C10_witness :
    (∃ e, QualifiedName.parse [ '.', 'x' ] = .error e) ∧
    QualifiedName.parse [ 'p', '.' ] =
      (if pyStrip [ 'p' ] = [] then .error .emptyPackage else .error .emptyName) :=
  ⟨(C10_parse_empty_component_failures.1 [ '.', 'x' ] [] [ 'x' ]
      (by decide) (by decide) (by decide)).mpr (.inl (by decide)),
   C10_parse_empty_component_failures.2.1 [ 'p', '.' ] [ 'p' ] (by decide) (by decide)⟩

/-! ### Claims C5, C6, C1: entities -/

theorem keeper_msg_split :
    ("' must have at least one store key").toList =
      ("' must have at least one ").toList ++ ("store key").toList := by
  decide

/-- C5: `KeeperPattern.validate` fails with an `ExtractionError` whose
message mentions "store key" exactly when `store_keys` is empty, and
succeeds (returning the pattern untouched — it is immutable and `validate`
only reads it) whenever `store_keys` is non-empty, whatever the
dependencies are. -/
theorem C5_keeper_validate_store_keys :
    ∀ k : KeeperPattern,
      ((∃ e, k.validate = .error e ∧ mentions (("store key").toList) e.msg) ↔
        k.store_keys = []) ∧
      (k.store_keys ≠ [] → k.validate = .ok ()) := by
  intro k
  constructor
  · constructor
    · rintro ⟨e, he, _⟩
      by_contra hk
      unfold KeeperPattern.validate at he
      rw [if_neg hk] at he
      exact absurd he (by simp)
    · intro hk
      refine ⟨_, by unfold KeeperPattern.validate; rw [if_pos hk], ?_⟩
      refine ⟨("Keeper '").toList ++ k.keeper_name.str ++ ("' must have at least one ").toList,
        [], ?_⟩
      rw [keeper_msg_split]
      simp [List.append_assoc]
  · intro hk
    unfold KeeperPattern.validate
    rw [if_neg hk]

/-- C5 witness: a keeper without store keys fails mentioning "store key";
one with a single store key validates. -/
theorem C5_witness :
    (∃ e, keeperNoKeys.validate = .error e ∧ mentions (("store key").toList) e.msg) ∧
    keeperOneKey.validate = .ok () :=
  ⟨(C5_keeper_validate_store_keys keeperNoKeys).1.mpr rfl,
   (C5_keeper_validate_store_keys keeperOneKey).2 (by decide)⟩

/-- C6: constructing a `PatternRelation` fails with an `ExtractionError`
mentioning "source and target" exactly when source and target are the same
instance (object identity, modelled by the `oid` tag); two distinct
instances always relate successfully, equal-valued or not. -/
theorem C6_relation_identity_check :
    ∀ (s t : PatternObj) (rt : RelationType) (md : Metadata),
      (s.oid = t.oid →
        ∃ e, PatternRelation.make s t rt md = .error e ∧
          mentions (("source and target").toList) e.msg) ∧
      (s.oid ≠ t.oid →
        PatternRelation.make s t rt md =
          .ok { source := s, target := t, relation_type := rt, metadata := md }) := by
  intro s t rt md
  constructor
  · intro h
    refine ⟨_, by unfold PatternRelation.make; rw [if_pos h], ?_⟩
    exact ⟨("Pattern relation ").toList, (" cannot be the same pattern").toList, by decide⟩
  · intro h
    unfold PatternRelation.make
    rw [if_neg h]

/-- C6 witness: relating `objA` to itself fails mentioning "source and
target"; relating the equal-valued but distinct `objA` and `objB`
succeeds. -/
theorem C6_witness :
    (∃ e, PatternRelation.make objA objA .DEPENDS_ON [] = .error e ∧
        mentions (("source and target").toList) e.msg) ∧
    PatternRelation.make objA objB .DEPENDS_ON [] =
      .ok { source := objA, target := objB, relation_type := .DEPENDS_ON, metadata := [] } ∧
    objA.data = objB.data ∧ objA.oid ≠ objB.oid :=
  ⟨(C6_relation_identity_check objA objA .DEPENDS_ON []).1 rfl,
   (C6_relation_identity_check objA objB .DEPENDS_ON []).2 (by decide),
   rfl, by decide⟩

/-- C1: the claim fails against the code. A `PatternRelation` constructed
from two distinct patterns exists fine, but its generated hash covers all
fields including the `dict`-typed `metadata`, and a Python `dict` is
unhashable, so `hash(relation)` raises `TypeError` (modelled as `none`) on
every constructed relation — the repository's own `test_is_hashable` test,
which expects `hash(relation)` not to raise, contradicts the code. -/
theorem C1_relation_hash_always_fails :
    PatternRelation.make objA objB .DEPENDS_ON [] =
      .ok { source := objA, target := objB, relation_type := .DEPENDS_ON, metadata := [] } ∧
    relationHash { source := objA, target := objB, relation_type := .DEPENDS_ON,
                   metadata := [] } = none ∧
    (∀ r : PatternRelation, relationHash r = none) := by
  refine ⟨?_, rfl, fun r => rfl⟩
  unfold PatternRelation.make
  rw [if_neg (by decide : ¬ objA.oid = objB.oid)]

/-! ### Claims C7, C8, C9: locations -/

/-- C7: when several `PatternLocation` invariants are violated, the single
error raised is the first failing check in the fixed source order —
line-start positivity, line-end positivity, line ordering, column-start
non-negativity, column-end non-negativity, same-line column ordering,
non-empty path — each characterized exactly. -/
theorem C7_location_error_order :
    ∀ (fp : PyPath) (ls le cs ce : ℤ),
      (PatternLocation.make fp ls le cs ce = .error (.lineStartNotPositive ls) ↔
        ls < 1) ∧
      (PatternLocation.make fp ls le cs ce = .error (.lineEndNotPositive le) ↔
        1 ≤ ls ∧ le < 1) ∧
      (PatternLocation.make fp ls le cs ce = .error (.lineEndBeforeLineStart ls le) ↔
        1 ≤ ls ∧ 1 ≤ le ∧ le < ls) ∧
      (PatternLocation.make fp ls le cs ce = .error (.columnStartNegative cs) ↔
        1 ≤ ls ∧ 1 ≤ le ∧ ls ≤ le ∧ cs < 0) ∧
      (PatternLocation.make fp ls le cs ce = .error (.columnEndNegative ce) ↔
        1 ≤ ls ∧ 1 ≤ le ∧ ls ≤ le ∧ 0 ≤ cs ∧ ce < 0) ∧
      (PatternLocation.make fp ls le cs ce = .error (.columnEndBeforeColumnStart cs ce) ↔
        1 ≤ ls ∧ 1 ≤ le ∧ ls ≤ le ∧ 0 ≤ cs ∧ 0 ≤ ce ∧ ls = le ∧ ce < cs) ∧
      (PatternLocation.make fp ls le cs ce = .error .emptyFilePath ↔
        1 ≤ ls ∧ 1 ≤ le ∧ ls ≤ le ∧ 0 ≤ cs ∧ 0 ≤ ce ∧ ¬(ls = le ∧ ce < cs) ∧
          fp.parts = []) := by
  intro fp ls le cs ce
  unfold PatternLocation.make
  split_ifs with h1 h2 h3 h4 h5 h6 h7
  · refine ⟨iff_of_true rfl h1, ?_, ?_, ?_, ?_, ?_, ?_⟩ <;>
      exact iff_of_false (by simp) (by rintro ⟨ha, _⟩; omega)
  · refine ⟨iff_of_false (by simp) (by omega),
      iff_of_true rfl ⟨by omega, h2⟩, ?_, ?_, ?_, ?_, ?_⟩ <;>
      exact iff_of_false (by simp) (by rintro ⟨_, hb, _⟩; omega)
  · refine ⟨iff_of_false (by simp) (by omega),
      iff_of_false (by simp) (by rintro ⟨_, hb⟩; omega),
      iff_of_true rfl ⟨by omega, by omega, h3⟩, ?_, ?_, ?_, ?_⟩ <;>
      exact iff_of_false (by simp) (by rintro ⟨_, _, hc, _⟩; omega)
  · refine ⟨iff_of_false (by simp) (by omega),
      iff_of_false (by simp) (by rintro ⟨_, hb⟩; omega),
      iff_of_false (by simp) (by rintro ⟨_, _, hc⟩; omega),
      iff_of_true rfl ⟨by omega, by omega, by omega, h4⟩, ?_, ?_, ?_⟩ <;>
      exact iff_of_false (by simp) (by rintro ⟨_, _, _, hd, _⟩; omega)
  · refine ⟨iff_of_false (by simp) (by omega),
      iff_of_false (by simp) (by rintro ⟨_, hb⟩; omega),
      iff_of_false (by simp) (by rintro ⟨_, _, hc⟩; omega),
      iff_of_false (by simp) (by rintro ⟨_, _, _, hd⟩; omega),
      iff_of_true rfl ⟨by omega, by omega, by omega, by omega, h5⟩, ?_, ?_⟩ <;>
      exact iff_of_false (by simp) (by rintro ⟨_, _, _, _, he, _⟩; omega)
  · exact ⟨iff_of_false (by simp) (by omega),
      iff_of_false (by simp) (by rintro ⟨_, hb⟩; omega),
      iff_of_false (by simp) (by rintro ⟨_, _, hc⟩; omega),
      iff_of_false (by simp) (by rintro ⟨_, _, _, hd⟩; omega),
      iff_of_false (by simp) (by rintro ⟨_, _, _, _, he⟩; omega),
      iff_of_true rfl ⟨by omega, by omega, by omega, by omega, by omega, h6.1, h6.2⟩,
      iff_of_false (by simp) (by rintro ⟨_, _, _, _, _, hf, _⟩; exact hf h6)⟩
  · exact ⟨iff_of_false (by simp) (by omega),
      iff_of_false (by simp) (by rintro ⟨_, hb⟩; omega),
      iff_of_false (by simp) (by rintro ⟨_, _, hc⟩; omega),
      iff_of_false (by simp) (by rintro ⟨_, _, _, hd⟩; omega),
      iff_of_false (by simp) (by rintro ⟨_, _, _, _, he⟩; omega),
      iff_of_false (by simp) (by rintro ⟨_, _, _, _, _, hf1, hf2⟩; exact h6 ⟨hf1, hf2⟩),
      iff_of_true rfl ⟨by omega, by omega, by omega, by omega, by omega, h6, h7⟩⟩
  · exact ⟨iff_of_false (by simp) (by omega),
      iff_of_false (by simp) (by rintro ⟨_, hb⟩; omega),
      iff_of_false (by simp) (by rintro ⟨_, _, hc⟩; omega),
      iff_of_false (by simp) (by rintro ⟨_, _, _, hd⟩; omega),
      iff_of_false (by simp) (by rintro ⟨_, _, _, _, he⟩; omega),
      iff_of_false (by simp) (by rintro ⟨_, _, _, _, _, hf1, hf2⟩; exact h6 ⟨hf1, hf2⟩),
      iff_of_false (by simp) (by rintro ⟨_, _, _, _, _, _, hg⟩; exact h7 hg)⟩

/-- C8: with a non-empty path, positive ordered lines, non-negative
columns, and same-line columns ordered, construction succeeds and every
field reads back exactly as supplied; no cross-line column constraint is
imposed. -/
theorem C8_location_roundtrip :
    ∀ (fp : PyPath) (ls le cs ce : ℤ),
      fp.parts ≠ [] → 1 ≤ ls → ls ≤ le → 0 ≤ cs → 0 ≤ ce → (ls = le → cs ≤ ce) →
      PatternLocation.make fp ls le cs ce =
        .ok { file_path := fp, line_start := ls, line_end := le,
              column_start := cs, column_end := ce } := by
  intro fp ls le cs ce hp h1 h2 h3 h4 h5
  have hc : ¬(ls = le ∧ ce < cs) := by
    rintro ⟨ha, hb⟩
    have := h5 ha
    omega
  unfold PatternLocation.make
  rw [if_neg (by omega : ¬ ls < 1), if_neg (by omega : ¬ le < 1),
    if_neg (by omega : ¬ le < ls), if_neg (by omega : ¬ cs < 0),
    if_neg (by omega : ¬ ce < 0), if_neg hc, if_neg hp]

/-- C8 witness: a location on lines 1-2 whose column range runs 5 to 3 —
legal across lines — built over `keeper.go`, fields unchanged. -/
theorem C8_witness :
    PatternLocation.make samplePath 1 2 5 3 =
      .ok { file_path := samplePath, line_start := 1, line_end := 2,
            column_start := 5, column_end := 3 } :=
  C8_location_roundtrip samplePath 1 2 5 3 (by decide) (by decide) (by decide)
    (by decide) (by decide) (fun h => absurd h (by decide))

/-- C9: the string form of a location is `path:line:col-col` when the line
numbers coincide and `path:line:col-line:col` otherwise; in particular the
whole-line location built by `at_line` at line 142 of `keeper.go` prints
as `keeper.go:142:0-0`. -/
theorem C9_location_str_format :
    (∀ loc : PatternLocation,
      (loc.line_start = loc.line_end →
        loc.toChars = loc.file_path.str ++ ':' :: intChars loc.line_start
          ++ ':' :: intChars loc.column_start ++ '-' :: intChars loc.column_end) ∧
      (loc.line_start ≠ loc.line_end →
        loc.toChars = loc.file_path.str ++ ':' :: intChars loc.line_start
          ++ ':' :: intChars loc.column_start ++ '-' :: intChars loc.line_end
          ++ ':' :: intChars loc.column_end)) ∧
    PatternLocation.at_line samplePath 142 = .ok sampleLocation ∧
    sampleLocation.toChars = ("keeper.go:142:0-0").toList := by
  refine ⟨?_, by decide, by decide⟩
  intro loc
  constructor
  · intro h
    unfold PatternLocation.toChars
    rw [if_pos h]
  · intro h
    unfold PatternLocation.toChars
    rw [if_neg h]

/-- C9 witness: the single-line format rule applied to the
`keeper.go:142` fixture. -/
theorem C9_witness :
    sampleLocation.toChars = sampleLocation.file_path.str
      ++ ':' :: intChars sampleLocation.line_start
      ++ ':' :: intChars sampleLocation.column_start
      ++ '-' :: intChars sampleLocation.column_end :=
  (C9_location_str_format.1 sampleLocation).1 rfl

end Codewatch
